import Mathlib

/-!
Shallow embedding of the `vault_backend` off-chain service, together with
proofs about its behaviour.  Each Rust function of the repository that the
development refers to is translated into an executable Lean definition:
`u64` / `i64` values become `Nat` / `Int` with explicit wrapping where the
Rust cast semantics matter, the Postgres store becomes an explicit `Store`
record threaded through the operations, and the external collaborators
(solana key parsing, PDA derivation, RPC fetches, wall-clock time) become
fields of an `Env` record supplied by the caller.
-/

namespace VaultBackend

/-- `2 ^ 64`, the modulus of Rust `u64` arithmetic. -/
def U64MOD : Nat := 2 ^ 64

/-- `2 ^ 32`, the modulus of Rust `u32` arithmetic. -/
def U32MOD : Nat := 2 ^ 32

/-- The Rust cast `x as i64` applied to a `u64` value: two's-complement
reinterpretation of the low 64 bits. -/
def u64_as_i64 (n : Nat) : Int :=
  if n % U64MOD < 2 ^ 63 then ((n % U64MOD : Nat) : Int)
  else ((n % U64MOD : Nat) : Int) - (U64MOD : Int)

/-! ## Access control (`src/access_control.rs`) -/

/-- `SecurityEventType` from `access_control.rs`. -/
inductive SecurityEventType where
  | unauthorizedAccessAttempt
  | suspiciousWithdrawal
  | rapidTransactionSequence
  | largeUnexpectedTransfer
  | accountStateChange
deriving DecidableEq

/-- `AlertSeverity` from `access_control.rs` (`Low = 1 < Medium < High < Critical`). -/
inductive AlertSeverity where
  | low
  | medium
  | high
  | critical
deriving DecidableEq

/-- `SecurityEvent` from `access_control.rs`; `Utc::now()` timestamps are
modelled as the integer second passed in by the caller. -/
structure SecurityEvent where
  event_type : SecurityEventType
  user : String
  vault : String
  timestamp : Int
  details : String
  severity : AlertSeverity
deriving DecidableEq

/-- The mutable maps held by `AccessControlManager` (the `authorized_users`
map is not needed by any property proved here and is omitted).  The Rust
`HashMap<String, u32>` of failed attempts is modelled as an association
list with at most one entry per key. -/
structure AcmState where
  security_events : List SecurityEvent
  failed_attempts : List (String × Nat)
deriving DecidableEq

/-- Fresh manager: `AccessControlManager::new`. -/
def AcmState.empty : AcmState := ⟨[], []⟩

/-- `HashMap` lookup with the `unwrap_or(0)` default used by
`get_failed_attempts`. -/
def lookupAttempts (m : List (String × Nat)) (user : String) : Nat :=
  match m.find? (fun p => p.1 == user) with
  | some p => p.2
  | none => 0

/-- `failed.entry(user.to_string()).or_insert(0)` followed by
`*attempt_count += 1` (u32 arithmetic, hence the wrap). -/
def bumpAttempts : List (String × Nat) → String → List (String × Nat)
  | [], user => [(user, (0 + 1) % U32MOD)]
  | p :: ps, user =>
    if p.1 == user then (p.1, (p.2 + 1) % U32MOD) :: ps
    else p :: bumpAttempts ps user

/-- `HashMap::remove`, used by `clear_failed_attempts`. -/
def removeAttempts : List (String × Nat) → String → List (String × Nat)
  | [], _ => []
  | p :: ps, user => if p.1 == user then ps else p :: removeAttempts ps user

/-- `record_unauthorized_attempt`: push a `High` severity event and bump the
user's failed-attempt counter. -/
def record_unauthorized_attempt (st : AcmState) (user vault details : String)
    (now : Int) : AcmState :=
  { security_events := st.security_events ++
      [{ event_type := .unauthorizedAccessAttempt, user := user, vault := vault,
         timestamp := now, details := details, severity := .high }],
    failed_attempts := bumpAttempts st.failed_attempts user }

/-- The event pushed by `record_suspicious_withdrawal`; the severity test
`amount > average_withdrawal * 10` is u64 arithmetic, so the product wraps. -/
def suspiciousEvent (user vault : String) (amount average_withdrawal : Nat)
    (now : Int) : SecurityEvent :=
  { event_type := .suspiciousWithdrawal, user := user, vault := vault,
    timestamp := now,
    details := "Withdrawal: " ++ toString amount ++ " (usually around " ++
      toString average_withdrawal ++ ")",
    severity := if (average_withdrawal * 10) % U64MOD < amount then .critical
      else .medium }

/-- `record_suspicious_withdrawal`: push one event whose severity is
`Critical` when `amount > average_withdrawal * 10`, else `Medium`. -/
def record_suspicious_withdrawal (st : AcmState) (user vault : String)
    (amount average_withdrawal : Nat) (now : Int) : AcmState :=
  { st with security_events := st.security_events ++
      [suspiciousEvent user vault amount average_withdrawal now] }

/-- `get_failed_attempts`. -/
def get_failed_attempts (st : AcmState) (user : String) : Nat :=
  lookupAttempts st.failed_attempts user

/-- `clear_failed_attempts`. -/
def clear_failed_attempts (st : AcmState) (user : String) : AcmState :=
  { st with failed_attempts := removeAttempts st.failed_attempts user }

/-- `is_user_blocked`: at least five failed attempts. -/
def is_user_blocked (st : AcmState) (user : String) : Bool :=
  5 ≤ get_failed_attempts st user

/-! ## Retry policy (`src/error_handling.rs`) -/

/-- `str::to_lowercase`, character by character (the five retry patterns
are ASCII, where per-character lowering coincides with Rust's). -/
def lowerStr (s : String) : String := String.mk (s.data.map Char.toLower)

/-- Is the first character list a prefix of the second? -/
def isPrefixOfChars : List Char → List Char → Bool
  | [], _ => true
  | _ :: _, [] => false
  | a :: as, b :: bs => a == b && isPrefixOfChars as bs

/-- Does `pat` occur as a contiguous run inside `s`? -/
def containsChars : List Char → List Char → Bool
  | [], pat => isPrefixOfChars pat []
  | c :: rest, pat => isPrefixOfChars pat (c :: rest) || containsChars rest pat

/-- Rust's `str::contains` substring test. -/
def strContains (s pat : String) : Bool := containsChars s.data pat.data

/-- `is_retryable_error`, applied to the error's display message. -/
def is_retryable_error (msg : String) : Bool :=
  let error_msg := lowerStr msg
  strContains error_msg "timeout"
    || strContains error_msg "connection"
    || strContains error_msg "temporarily"
    || strContains error_msg "unavailable"
    || strContains error_msg "rate limit"

/-- `RetryConfig`.  The `f64` multiplier is modelled as an exact rational;
for the default multiplier `2.0` and the delay magnitudes reachable from
the defaults the `f64` computation is exact, so nothing is lost. -/
structure RetryConfig where
  max_attempts : Nat
  initial_delay_ms : Nat
  max_delay_ms : Nat
  backoff_multiplier : ℚ

/-- `RetryConfig::default()`. -/
def RetryConfig.default : RetryConfig :=
  { max_attempts := 3, initial_delay_ms := 100, max_delay_ms := 5000,
    backoff_multiplier := 2 }

/-- The delay update performed between attempts:
`delay = ((delay as f64) * multiplier) as u64; delay = delay.min(max_delay_ms)`.
The float-to-integer cast truncates toward zero (clamping negatives to 0),
which is `Int.toNat ∘ Int.floor` on non-negatives. -/
def nextDelay (config : RetryConfig) (delay : Nat) : Nat :=
  min (Int.toNat ⌊(delay : ℚ) * config.backoff_multiplier⌋) config.max_delay_ms

/-- The attempt loop of `retry_with_backoff`.  The operation `f` maps the
attempt number (starting at 1) to that attempt's outcome.  `remaining`
counts `max_attempts - attempt` (the Rust guard `attempt >= max_attempts`
becomes `remaining ≤ 1` after the increment); `slept` accumulates the
delays slept so far, in reverse.  Returns the final outcome, the number of
attempts made and the list of inter-attempt delays slept. -/
def retryAux (config : RetryConfig) (f : Nat → Except String α) :
    Nat → Nat → Nat → List Nat → (Except String α) × Nat × List Nat
  | 0, attempt, _, slept =>
    match f (attempt + 1) with
    | .ok v => (.ok v, attempt + 1, slept.reverse)
    | .error e => (.error e, attempt + 1, slept.reverse)
  | 1, attempt, _, slept =>
    match f (attempt + 1) with
    | .ok v => (.ok v, attempt + 1, slept.reverse)
    | .error e => (.error e, attempt + 1, slept.reverse)
  | r + 2, attempt, delay, slept =>
    match f (attempt + 1) with
    | .ok v => (.ok v, attempt + 1, slept.reverse)
    | .error e =>
      if is_retryable_error e then
        retryAux config f (r + 1) (attempt + 1) (nextDelay config delay)
          (delay :: slept)
      else (.error e, attempt + 1, slept.reverse)

/-- `retry_with_backoff`: run `f` until success, a non-retryable error, or
`max_attempts` attempts. -/
def retry_with_backoff (config : RetryConfig) (f : Nat → Except String α) :
    (Except String α) × Nat × List Nat :=
  retryAux config f config.max_attempts 0 config.initial_delay_ms []

/-- The sequence of inter-attempt delays predicted by the specification:
the `i`-th retry sleeps `nextDelay^[i] initial_delay_ms`. -/
def delaysFrom (config : RetryConfig) (delay : Nat) (k : Nat) : List Nat :=
  (List.range k).map (fun i => (nextDelay config)^[i] delay)

/-! ## Ledger store data model (`src/db/*.rs`)

`NaiveDateTime` values are modelled as unix seconds (`Int`); Postgres
`BIGINT` columns are modelled as unbounded `Int` (all amounts appearing in
the properties below are far from the `i64` boundary, where Postgres would
raise rather than wrap). -/

/-- `VaultRow` from `vault_repo.rs`. -/
structure VaultRow where
  vault_pda : String
  program_id : String
  network : String
  owner_pubkey : String
  mint : String
  vault_token_account : String
  total_balance : Int
  locked_balance : Int
  available_balance : Int
  total_deposited : Int
  total_withdrawn : Int
  created_at : Int
  last_synced_at : Int
deriving DecidableEq

/-- `TransactionRow` from `transaction_repo.rs`.  The random
`Uuid::new_v4` primary key is never read by the modelled code and is
omitted. -/
structure TransactionRow where
  vault_pda : String
  program_id : String
  network : String
  user_pubkey : Option String
  tx_signature : String
  tx_type : String
  amount : Int
  slot : Int
  block_time : Int
deriving DecidableEq

/-- `BalanceSnapshotRow` from `snapshot_repo.rs`. -/
structure BalanceSnapshotRow where
  vault_pda : String
  program_id : String
  network : String
  snapshot_time : Int
  total_balance : Int
  locked_balance : Int
  available_balance : Int
deriving DecidableEq

/-- A `reconciliation_logs` row as written by
`ReconciliationRepository::insert_discrepancy` (random UUID omitted,
`resolved` defaults to false in the schema and is never set here). -/
structure ReconciliationRow where
  vault_pda : String
  program_id : String
  network : String
  onchain_balance : Int
  offchain_balance : Int
  discrepancy : Int
  detected_at : Int
deriving DecidableEq

/-- The relational store: the tables touched by the indexer and the
reconciliation worker.  Each table is a list in insertion order; the
uniqueness constraints are enforced by the conflict-checking insert
operations below, exactly as in the SQL. -/
structure Store where
  vaults : List VaultRow
  transactions : List TransactionRow
  processed_events : List String
  snapshots : List BalanceSnapshotRow
  recon_logs : List ReconciliationRow
deriving DecidableEq

/-- `VaultEvent` from `indexer/event_decoder.rs`. -/
inductive VaultEvent where
  | vaultAuthorityInitialized (admin : String)
  | programAuthorized (program_id : String)
  | vaultInitialized (vault owner mint : String) (timestamp : Int)
  | deposit (user : String) (amount new_balance : Nat) (timestamp : Int)
  | withdraw (vault user : String) (amount : Nat)
  | lock (vault : String) (amount : Nat)
  | unlock (vault : String) (amount : Nat)
  | transfer (src dst : String) (amount : Nat)
deriving DecidableEq

/-- An on-chain transaction as the indexer consumes it, with its event
payloads already decoded (`decode_events` internals are not modelled; no
property below depends on them beyond the decoded list). -/
structure Tx where
  signatures : List String
  events : List VaultEvent
  slot : Int
  block_time : Option Int
deriving DecidableEq

/-- Environment of external calls. `parsePubkey` is `Pubkey::from_str` /
`str::parse::<Pubkey>` (`none` = parse error), `derivePda` is
`TransactionBuilder::derive_vault_pda` applied to a parsed key,
`tsInRange` is the success predicate of `chrono`'s
`DateTime::from_timestamp(ts, 0)`, `now` is the wall clock, and the two
fetches are the RPC calls made by reconciliation and the indexer. -/
structure Env where
  parsePubkey : String → Option String
  derivePda : String → String
  tsInRange : Int → Bool
  now : Int
  fetchTokenBalance : String → Except String Nat
  fetchTx : String → Except String Tx

/-- `DateTime::<Utc>::from_timestamp(timestamp, 0).unwrap_or_else(|| Utc::now())`. -/
def fromTimestamp (env : Env) (t : Int) : Int :=
  if env.tsInRange t then t else env.now

/-! ## Vault repository operations (`src/db/vault_repo.rs`) -/

/-- The `ON CONFLICT (vault_pda) DO UPDATE` arm of `upsert_vault`: balances
and `last_synced_at` come from the excluded row, identity columns stay. -/
def mergeVaultRow (v old : VaultRow) : VaultRow :=
  { old with
    total_balance := v.total_balance,
    locked_balance := v.locked_balance,
    available_balance := v.available_balance,
    total_deposited := v.total_deposited,
    total_withdrawn := v.total_withdrawn,
    last_synced_at := v.last_synced_at }

/-- `UPDATE vaults SET … WHERE vault_pda = $1`: apply `f` to every row
whose PDA matches. -/
def updatePda (vault_pda : String) (f : VaultRow → VaultRow)
    (l : List VaultRow) : List VaultRow :=
  l.map (fun r => if r.vault_pda == vault_pda then f r else r)

/-- `upsert_vault`. -/
def upsert_vault (v : VaultRow) (s : Store) : Store :=
  if s.vaults.any (fun r => r.vault_pda == v.vault_pda) then
    { s with vaults := updatePda v.vault_pda (mergeVaultRow v) s.vaults }
  else
    { s with vaults := s.vaults ++ [v] }

/-- `get_vault` (`fetch_optional` under the `vault_pda` uniqueness
constraint). -/
def get_vault (s : Store) (vault_pda : String) : Option VaultRow :=
  s.vaults.find? (fun r => r.vault_pda == vault_pda)

/-- Stable insertion step of `ORDER BY created_at ASC`. -/
def insertByCreated (v : VaultRow) : List VaultRow → List VaultRow
  | [] => [v]
  | w :: ws =>
    if v.created_at < w.created_at then v :: w :: ws
    else w :: insertByCreated v ws

/-- `get_all_vaults`: all rows ordered by `created_at` ascending (stable). -/
def get_all_vaults (s : Store) : List VaultRow :=
  s.vaults.foldr insertByCreated []

/-- `get_tvl`: `COALESCE(SUM(total_balance), 0)`. -/
def get_tvl (s : Store) : Int :=
  (s.vaults.map (fun r => r.total_balance)).sum

/-- The row built by `insert_new_vault` for a `VaultInitialized` event:
empty `program_id` and `vault_token_account`, zero balances,
`created_at = last_synced_at = from_timestamp(timestamp)`. -/
def newVaultRow (env : Env) (vault_pda owner_pubkey mint : String)
    (timestamp : Int) : VaultRow :=
  let created_at := fromTimestamp env timestamp
  { vault_pda := vault_pda, program_id := "", network := "localnet",
    owner_pubkey := owner_pubkey, mint := mint, vault_token_account := "",
    total_balance := 0, locked_balance := 0, available_balance := 0,
    total_deposited := 0, total_withdrawn := 0,
    created_at := created_at, last_synced_at := created_at }

/-- `insert_new_vault`. -/
def insert_new_vault (env : Env) (vault_pda owner_pubkey mint : String)
    (timestamp : Int) (s : Store) : Store :=
  upsert_vault (newVaultRow env vault_pda owner_pubkey mint timestamp) s

/-- The `SET` clause of `set_balance_from_event`. -/
def setBalanceRow (new_total_balance ts : Int) (r : VaultRow) : VaultRow :=
  { r with
    total_balance := new_total_balance,
    available_balance := new_total_balance,
    last_synced_at := ts }

/-- `set_balance_from_event`: `total_balance = available_balance = $2`,
refresh `last_synced_at`; rows with other PDAs are untouched (and a
missing PDA updates zero rows, succeeding silently). -/
def set_balance_from_event (env : Env) (vault_pda : String)
    (new_total_balance timestamp : Int) (s : Store) : Store :=
  let ts := fromTimestamp env timestamp
  { s with vaults := updatePda vault_pda (setBalanceRow new_total_balance ts) s.vaults }

/-- The `SET` clause of `apply_withdraw`. -/
def withdrawRow (amount now : Int) (r : VaultRow) : VaultRow :=
  { r with
    total_balance := r.total_balance - amount,
    available_balance := r.available_balance - amount,
    total_withdrawn := r.total_withdrawn + amount,
    last_synced_at := now }

/-- `apply_withdraw`. -/
def apply_withdraw (env : Env) (vault_pda : String) (amount : Int)
    (s : Store) : Store :=
  { s with vaults := updatePda vault_pda (withdrawRow amount env.now) s.vaults }

/-- The `SET` clause of `apply_lock`. -/
def lockRow (amount now : Int) (r : VaultRow) : VaultRow :=
  { r with
    available_balance := r.available_balance - amount,
    locked_balance := r.locked_balance + amount,
    last_synced_at := now }

/-- `apply_lock`. -/
def apply_lock (env : Env) (vault_pda : String) (amount : Int)
    (s : Store) : Store :=
  { s with vaults := updatePda vault_pda (lockRow amount env.now) s.vaults }

/-- The `SET` clause of `apply_unlock`. -/
def unlockRow (amount now : Int) (r : VaultRow) : VaultRow :=
  { r with
    available_balance := r.available_balance + amount,
    locked_balance := r.locked_balance - amount,
    last_synced_at := now }

/-- `apply_unlock`. -/
def apply_unlock (env : Env) (vault_pda : String) (amount : Int)
    (s : Store) : Store :=
  { s with vaults := updatePda vault_pda (unlockRow amount env.now) s.vaults }

/-- The debit half of `apply_transfer`. -/
def debitRow (amount now : Int) (r : VaultRow) : VaultRow :=
  { r with
    total_balance := r.total_balance - amount,
    available_balance := r.available_balance - amount,
    last_synced_at := now }

/-- The credit half of `apply_transfer`. -/
def creditRow (amount now : Int) (r : VaultRow) : VaultRow :=
  { r with
    total_balance := r.total_balance + amount,
    available_balance := r.available_balance + amount,
    last_synced_at := now }

/-- `apply_transfer`: debit `from_vault`, then credit `to_vault`, inside a
single database transaction (whose commit always succeeds here, since the
modelled updates cannot fail). -/
def apply_transfer (env : Env) (from_vault to_vault : String) (amount : Int)
    (s : Store) : Store :=
  let s1 := { s with vaults := updatePda from_vault (debitRow amount env.now) s.vaults }
  { s1 with vaults := updatePda to_vault (creditRow amount env.now) s1.vaults }

/-! ## Other repositories -/

/-- `TransactionRepository::insert_transaction`
(`ON CONFLICT (tx_signature) DO NOTHING`). -/
def insertTransactionRow (row : TransactionRow) (s : Store) : Store :=
  if s.transactions.any (fun t => t.tx_signature == row.tx_signature) then s
  else { s with transactions := s.transactions ++ [row] }

/-- `TransactionRepository::insert_simple`. -/
def insert_simple (env : Env) (vault_pda : String) (user_pubkey : Option String)
    (tx_signature tx_type : String) (amount slot block_time : Int)
    (s : Store) : Store :=
  insertTransactionRow
    { vault_pda := vault_pda, program_id := "", network := "localnet",
      user_pubkey := user_pubkey, tx_signature := tx_signature,
      tx_type := tx_type, amount := amount, slot := slot,
      block_time := fromTimestamp env block_time } s

/-- `SnapshotRepository::insert_snapshot`
(`ON CONFLICT (vault_pda, snapshot_time) DO NOTHING`). -/
def insertSnapshot (row : BalanceSnapshotRow) (s : Store) : Store :=
  if s.snapshots.any
      (fun q => q.vault_pda == row.vault_pda && q.snapshot_time == row.snapshot_time) then s
  else { s with snapshots := s.snapshots ++ [row] }

/-- `SnapshotRepository::snapshot_all_vaults`. -/
def snapshot_all_vaults (vaults : List VaultRow) (snapshot_time : Int)
    (s : Store) : Store :=
  vaults.foldl
    (fun acc v => insertSnapshot
      { vault_pda := v.vault_pda, program_id := v.program_id,
        network := v.network, snapshot_time := snapshot_time,
        total_balance := v.total_balance, locked_balance := v.locked_balance,
        available_balance := v.available_balance } acc) s

/-- `processed_events::is_processed`. -/
def is_processed (s : Store) (sig : String) : Bool :=
  s.processed_events.contains sig

/-- `processed_events::mark_processed` (`ON CONFLICT DO NOTHING`). -/
def mark_processed (sig : String) (s : Store) : Store :=
  if s.processed_events.contains sig then s
  else { s with processed_events := s.processed_events ++ [sig] }

/-- `ReconciliationRepository::insert_discrepancy` (a plain `INSERT`,
`detected_at = NOW()`). -/
def insert_discrepancy (env : Env) (vault_pda program_id network : String)
    (onchain_balance offchain_balance discrepancy : Int) (s : Store) : Store :=
  { s with recon_logs := s.recon_logs ++
      [{ vault_pda := vault_pda, program_id := program_id, network := network,
         onchain_balance := onchain_balance, offchain_balance := offchain_balance,
         discrepancy := discrepancy, detected_at := env.now }] }

/-! ## Indexer: `process_transaction` (`src/indexer/process_transaction.rs`)

The Rust function issues each repository call directly against the pool,
so a mid-loop failure leaves the effects already issued committed.  The
result type makes that explicit: `err` carries the store as left behind. -/

inductive ProcResult where
  | ok (s : Store)
  | err (s : Store) (msg : String)
deriving DecidableEq

/-- One arm of the `match event` loop body. -/
def applyEvent (env : Env) (sig : String) (slot block_time : Int)
    (s : Store) : VaultEvent → ProcResult
  | .vaultInitialized vault owner mint timestamp =>
    .ok (insert_new_vault env vault owner mint timestamp s)
  | .deposit user amount new_balance timestamp =>
    match env.parsePubkey user with
    | none => .err s "invalid user pubkey"
    | some key =>
      let vault_pda := env.derivePda key
      let s1 := insert_simple env vault_pda (some user) sig "deposit"
        (u64_as_i64 amount) slot block_time s
      .ok (set_balance_from_event env vault_pda (u64_as_i64 new_balance) timestamp s1)
  | .withdraw vault user amount =>
    let s1 := insert_simple env vault (some user) sig "withdraw"
      (u64_as_i64 amount) slot block_time s
    .ok (apply_withdraw env vault (u64_as_i64 amount) s1)
  | .lock vault amount => .ok (apply_lock env vault (u64_as_i64 amount) s)
  | .unlock vault amount => .ok (apply_unlock env vault (u64_as_i64 amount) s)
  | .transfer src dst amount => .ok (apply_transfer env src dst (u64_as_i64 amount) s)
  | .programAuthorized _ => .ok s
  | .vaultAuthorityInitialized _ => .ok s

/-- The `for event in events` loop, stopping at the first `?` failure. -/
def applyEvents (env : Env) (sig : String) (slot block_time : Int) :
    List VaultEvent → Store → ProcResult
  | [], s => .ok s
  | e :: es, s =>
    match applyEvent env sig slot block_time s e with
    | .ok s' => applyEvents env sig slot block_time es s'
    | .err s' m => .err s' m

/-- `process_transaction`. -/
def process_transaction (env : Env) (tx : Tx) (s : Store) : ProcResult :=
  match tx.signatures.head? with
  | none => .err s "Missing tx signature"
  | some sig =>
    if is_processed s sig then .ok s
    else
      let block_time := tx.block_time.getD 0
      match applyEvents env sig tx.slot block_time tx.events s with
      | .err s' m => .err s' m
      | .ok s1 =>
        let s2 := match tx.block_time with
          | some bt => snapshot_all_vaults (get_all_vaults s1) (fromTimestamp env bt) s1
          | none => s1
        .ok (mark_processed sig s2)

/-! ## The two `run_once` passes -/

/-- Shared element-at-a-time loop: each `?` in the Rust `for` body returns
the error from `run_once` immediately. -/
def runSteps (step : α → Store → ProcResult) : List α → Store → ProcResult
  | [], s => .ok s
  | x :: xs, s =>
    match step x s with
    | .ok s' => runSteps step xs s'
    | .err s' m => .err s' m

/-- One iteration of the reconciliation loop over a vault row
(`ReconciliationWorker::run_once` body). -/
def reconStep (env : Env) (v : VaultRow) (s : Store) : ProcResult :=
  match env.parsePubkey v.vault_token_account with
  | none => .err s "invalid token account pubkey"
  | some token_account =>
    match env.fetchTokenBalance token_account with
    | .error e => .err s e
    | .ok onchain_balance =>
      let offchain_balance := v.total_balance
      if u64_as_i64 onchain_balance != offchain_balance then
        .ok (insert_discrepancy env v.vault_pda v.program_id v.network
          (u64_as_i64 onchain_balance) offchain_balance
          (offchain_balance - u64_as_i64 onchain_balance) s)
      else .ok s

namespace ReconciliationWorker

/-- `ReconciliationWorker::run_once`. -/
def run_once (env : Env) (s : Store) : ProcResult :=
  runSteps (reconStep env) (get_all_vaults s) s

end ReconciliationWorker

/-- One iteration of the indexer loop over a signature
(`VaultIndexer::run_once` body): fetch the transaction, then process it. -/
def indexerStep (env : Env) (sig : String) (s : Store) : ProcResult :=
  match env.fetchTx sig with
  | .error e => .err s e
  | .ok tx => process_transaction env tx s

namespace VaultIndexer

/-- `VaultIndexer::run_once`, over the signature list returned by
`get_signatures_for_address`. -/
def run_once (env : Env) (sigs : List String) (s : Store) : ProcResult :=
  runSteps (indexerStep env) sigs s

end VaultIndexer

/-! ## Helper lemmas about the store operations -/

/-- Discriminator for pass results. -/
def ProcResult.isErr : ProcResult → Bool
  | .ok _ => false
  | .err _ _ => true

/-- The store carried by a pass result (on error: the partial store left
behind in the database). -/
def ProcResult.store : ProcResult → Store
  | .ok s => s
  | .err s _ => s


/-! ## Balance invariants (spec §8, invariants 1–2) -/

/-- The two per-row balance invariants the specification demands after
every committed event: `total = available + locked` and
`0 ≤ locked ≤ total`. -/
def BalancedRow (r : VaultRow) : Prop :=
  r.total_balance = r.available_balance + r.locked_balance ∧
  0 ≤ r.locked_balance ∧ r.locked_balance ≤ r.total_balance

instance (r : VaultRow) : Decidable (BalancedRow r) := by
  unfold BalancedRow
  infer_instance

/-! ## Concrete fixtures used by counterexamples and witnesses -/

/-- A concrete environment: every string except `"BAD"` and `""` parses as
a key, every PDA derivation lands on `"V"`, timestamps are in range, the
clock reads `999`, the token account `"T2"` holds `900` on chain, and the
RPC transaction fetch always fails with a retryable error. -/
def env0 : Env :=
  { parsePubkey := fun s => if s = "BAD" || s = "" then none else some s,
    derivePda := fun _ => "V",
    tsInRange := fun _ => true,
    now := 999,
    fetchTokenBalance := fun a => if a = "T2" then .ok 900 else .error "unavailable",
    fetchTx := fun _ => .error "connection refused" }

/-- The empty store. -/
def emptyStore : Store := ⟨[], [], [], [], []⟩

/-- `VaultInitialized(vault=V, owner=U, mint=M, t=1000)` in a transaction
with signature `sig1`. -/
def txInit : Tx :=
  { signatures := ["sig1"], events := [.vaultInitialized "V" "U" "M" 1000],
    slot := 1, block_time := some 1000 }

/-- `Deposit(user=U, amount=500, new_balance=500, t=1100)` in a transaction
with signature `sig2`. -/
def txDeposit : Tx :=
  { signatures := ["sig2"], events := [.deposit "U" 500 500 1100],
    slot := 2, block_time := some 1100 }

/-- The store after indexing `txInit` from empty. -/
def storeAfterInit : Store := (process_transaction env0 txInit emptyStore).store

/-- The store after then indexing `txDeposit`. -/
def storeAfterDeposit : Store :=
  (process_transaction env0 txDeposit storeAfterInit).store

/-- The vault row produced by the initialize-then-deposit scenario. -/
def c1_row : VaultRow :=
  { vault_pda := "V", program_id := "", network := "localnet",
    owner_pubkey := "U", mint := "M", vault_token_account := "",
    total_balance := 500, locked_balance := 0, available_balance := 500,
    total_deposited := 0, total_withdrawn := 0,
    created_at := 1000, last_synced_at := 1100 }

/-- A vault `V` holding 100 available (counters balanced). -/
def rowV100 : VaultRow :=
  { vault_pda := "V", program_id := "", network := "localnet",
    owner_pubkey := "U", mint := "M", vault_token_account := "T2",
    total_balance := 100, locked_balance := 0, available_balance := 100,
    total_deposited := 100, total_withdrawn := 0,
    created_at := 0, last_synced_at := 0 }

/-- A store holding only `rowV100`. -/
def storeW0 : Store := ⟨[rowV100], [], [], [], []⟩

/-- Signature `S`: a single `Withdraw(vault=V, user=U, amount=50)`. -/
def txS : Tx :=
  { signatures := ["S"], events := [.withdraw "V" "U" 50],
    slot := 1, block_time := none }

/-- The store after processing `txS` once from `storeW0`. -/
def storeW1 : Store := (process_transaction env0 txS storeW0).store

/-- Signature `S2`: a `Withdraw(V, 50)` followed by a `Deposit` whose user
key fails to parse. -/
def txBad : Tx :=
  { signatures := ["S2"], events := [.withdraw "V" "U" 50, .deposit "BAD" 1 1 0],
    slot := 1, block_time := none }

/-- The (partial) store left behind by processing `txBad` from `storeW0`. -/
def c2_partial : Store := (process_transaction env0 txBad storeW0).store

/-- A vault with a positive locked balance, satisfying both invariants. -/
def rowLocked : VaultRow :=
  { vault_pda := "V", program_id := "", network := "localnet",
    owner_pubkey := "U", mint := "M", vault_token_account := "T2",
    total_balance := 100, locked_balance := 50, available_balance := 50,
    total_deposited := 100, total_withdrawn := 0,
    created_at := 0, last_synced_at := 0 }

/-- A store holding only `rowLocked`. -/
def storeLocked : Store := ⟨[rowLocked], [], [], [], []⟩

/-- Vault `A` with total 1000 (for the transfer scenario). -/
def rowA : VaultRow :=
  { vault_pda := "A", program_id := "", network := "localnet",
    owner_pubkey := "OA", mint := "M", vault_token_account := "TA",
    total_balance := 1000, locked_balance := 0, available_balance := 1000,
    total_deposited := 1000, total_withdrawn := 0,
    created_at := 0, last_synced_at := 0 }

/-- Vault `B` with total 500 (for the transfer scenario). -/
def rowB : VaultRow :=
  { vault_pda := "B", program_id := "", network := "localnet",
    owner_pubkey := "OB", mint := "M", vault_token_account := "TB",
    total_balance := 500, locked_balance := 0, available_balance := 500,
    total_deposited := 500, total_withdrawn := 0,
    created_at := 1, last_synced_at := 0 }

/-- A store holding vaults `A` and `B`. -/
def storeAB : Store := ⟨[rowA, rowB], [], [], [], []⟩

/-- An indexer-created vault row: empty `vault_token_account`. -/
def rowEmptyToken : VaultRow := newVaultRow env0 "P1" "O1" "M" 0

/-- Vault whose mirrored total (1000) diverges from the on-chain 900. -/
def rowDiverged : VaultRow :=
  { vault_pda := "B2", program_id := "", network := "localnet",
    owner_pubkey := "OB", mint := "M", vault_token_account := "T2",
    total_balance := 1000, locked_balance := 0, available_balance := 1000,
    total_deposited := 1000, total_withdrawn := 0,
    created_at := 1, last_synced_at := 0 }

/-- A reconciliation-pass store: first an indexer-created vault (empty
token account), then a diverged vault. -/
def storeRecon : Store := ⟨[rowEmptyToken, rowDiverged], [], [], [], []⟩

/-- The attempt recorded five times in the blocking scenario. -/
def acmAttempt (st : AcmState) : AcmState :=
  record_unauthorized_attempt st "attacker" "vault1" "attempt" 0

/-- Four recorded unauthorized attempts. -/
def acm4 : AcmState := acmAttempt (acmAttempt (acmAttempt (acmAttempt AcmState.empty)))

/-- Five recorded unauthorized attempts. -/
def acm5 : AcmState := acmAttempt acm4

/-- An operation failing twice with a retryable error, then succeeding. -/
def opConn : Nat → Except String Nat :=
  fun i => if i ≤ 2 then .error "connection refused" else .ok 42

/-- An operation always failing with a non-retryable error. -/
def opInvalid : Nat → Except String Nat := fun _ => .error "invalid account"


/-! # Theorems -/

/-! ### Lemmas about the failed-attempt map -/

theorem lookup_bump_self (m : List (String × Nat)) (user : String) :
    lookupAttempts (bumpAttempts m user) user =
      (lookupAttempts m user + 1) % U32MOD := by
  induction m with
  | nil => simp [bumpAttempts, lookupAttempts]
  | cons p ps ih =>
    obtain ⟨k, v⟩ := p
    by_cases h : k = user
    · subst h
      simp [bumpAttempts, lookupAttempts, List.find?]
    · have hb : (k == user) = false := by simp [h]
      simp only [bumpAttempts, hb, Bool.false_eq_true, if_false,
        lookupAttempts, List.find?]
      simpa [lookupAttempts] using ih

theorem lookup_bump_other (m : List (String × Nat)) (user u : String)
    (h : u ≠ user) :
    lookupAttempts (bumpAttempts m user) u = lookupAttempts m u := by
  have hne : (user == u) = false := by
    simp only [beq_eq_false_iff_ne, ne_eq]
    exact fun e => h e.symm
  induction m with
  | nil => simp [bumpAttempts, lookupAttempts, List.find?, hne]
  | cons p ps ih =>
    obtain ⟨k, v⟩ := p
    by_cases hp : k = user
    · subst hp
      simp [bumpAttempts, lookupAttempts, List.find?, hne]
    · have hb : (k == user) = false := by simp [hp]
      simp only [bumpAttempts, hb, Bool.false_eq_true, if_false]
      simp only [lookupAttempts, List.find?]
      cases hkv : (k == u) with
      | true => rfl
      | false => simpa [lookupAttempts] using ih

/-- Removing a user's entry makes its lookup default to `0`, provided the
map has at most one entry per key (we only need the first-occurrence
behaviour here). -/
theorem lookup_remove_self (m : List (String × Nat)) (user : String)
    (hkeys : (m.map Prod.fst).Nodup) :
    lookupAttempts (removeAttempts m user) user = 0 := by
  induction m with
  | nil => simp [removeAttempts, lookupAttempts]
  | cons p ps ih =>
    obtain ⟨k, v⟩ := p
    simp only [List.map_cons, List.nodup_cons] at hkeys
    by_cases h : k = user
    · subst h
      simp only [removeAttempts, beq_self_eq_true, if_true, lookupAttempts]
      rw [List.find?_eq_none.mpr]
      intro q hq hb
      have hq1 : q.1 = k := by simpa using hb
      exact hkeys.1 (hq1 ▸ List.mem_map_of_mem Prod.fst hq)
    · have hb : (k == user) = false := by simp [h]
      simp only [removeAttempts, hb, Bool.false_eq_true, if_false,
        lookupAttempts, List.find?, hb]
      simpa [lookupAttempts] using ih hkeys.2

/-! ### Retry loop lemmas -/

theorem delaysFrom_zero (config : RetryConfig) (delay : Nat) :
    delaysFrom config delay 0 = [] := rfl

theorem delaysFrom_succ (config : RetryConfig) (delay k : Nat) :
    delaysFrom config delay (k + 1) =
      delay :: delaysFrom config (nextDelay config delay) k := by
  unfold delaysFrom
  rw [List.range_succ_eq_map, List.map_cons, List.map_map]
  simp only [Function.iterate_zero_apply]
  congr 1

/-! ### Behavioural lemmas for the retry loop -/

theorem retryAux_ok {α : Type} (config : RetryConfig) (f : Nat → Except String α)
    (remaining attempt delay : Nat) (slept : List Nat) (v : α)
    (h : f (attempt + 1) = .ok v) :
    retryAux config f remaining attempt delay slept =
      (.ok v, attempt + 1, slept.reverse) := by
  cases remaining with
  | zero => simp [retryAux, h]
  | succ n =>
    cases n with
    | zero => simp [retryAux, h]
    | succ r => simp [retryAux, h]

theorem retryAux_stop {α : Type} (config : RetryConfig) (f : Nat → Except String α)
    (remaining attempt delay : Nat) (slept : List Nat) (e : String)
    (h : f (attempt + 1) = .error e)
    (hstop : remaining ≤ 1 ∨ is_retryable_error e = false) :
    retryAux config f remaining attempt delay slept =
      (.error e, attempt + 1, slept.reverse) := by
  cases remaining with
  | zero => simp [retryAux, h]
  | succ n =>
    cases n with
    | zero => simp [retryAux, h]
    | succ r =>
      rcases hstop with hle | hret
      · omega
      · simp [retryAux, h, hret]

theorem retryAux_step {α : Type} (config : RetryConfig) (f : Nat → Except String α)
    (r attempt delay : Nat) (slept : List Nat) (e : String)
    (h : f (attempt + 1) = .error e)
    (hret : is_retryable_error e = true) :
    retryAux config f (r + 2) attempt delay slept =
      retryAux config f (r + 1) (attempt + 1) (nextDelay config delay)
        (delay :: slept) := by
  simp [retryAux, h, hret]

theorem retryAux_step' {α : Type} (config : RetryConfig) (f : Nat → Except String α)
    (remaining attempt delay : Nat) (slept : List Nat) (e : String)
    (h2 : 2 ≤ remaining)
    (h : f (attempt + 1) = .error e)
    (hret : is_retryable_error e = true) :
    retryAux config f remaining attempt delay slept =
      retryAux config f (remaining - 1) (attempt + 1) (nextDelay config delay)
        (delay :: slept) := by
  obtain ⟨r, rfl⟩ : ∃ r, remaining = r + 2 := ⟨remaining - 2, by omega⟩
  rw [show r + 2 - 1 = r + 1 by omega]
  exact retryAux_step config f r attempt delay slept e h hret

/-- If attempts `attempt+1 … attempt+k-1` all produce retryable errors and
attempt `attempt+k` succeeds (with `k` within the remaining budget), the
loop returns that success after exactly `attempt+k` attempts, having slept
the predicted delay sequence. -/
theorem retryAux_succeeds {α : Type} (config : RetryConfig)
    (f : Nat → Except String α) (v : α) :
    ∀ (k : Nat), 1 ≤ k → ∀ (remaining attempt delay : Nat) (slept : List Nat),
      k ≤ remaining →
      (∀ i, attempt + 1 ≤ i → i < attempt + k →
        ∃ e, f i = .error e ∧ is_retryable_error e = true) →
      f (attempt + k) = .ok v →
      retryAux config f remaining attempt delay slept =
        (.ok v, attempt + k, slept.reverse ++ delaysFrom config delay (k - 1)) := by
  intro k
  induction k with
  | zero => omega
  | succ k ih =>
    intro _ remaining attempt delay slept hrem herr hok
    by_cases hk0 : k = 0
    · subst hk0
      rw [retryAux_ok config f remaining attempt delay slept v hok]
      simp [delaysFrom]
    · have hk1 : 1 ≤ k := by omega
      obtain ⟨e, he, hret⟩ := herr (attempt + 1) (by omega) (by omega)
      rw [retryAux_step' config f remaining attempt delay slept e (by omega) he hret]
      have hok' : f (attempt + 1 + k) = .ok v := by
        rw [show attempt + 1 + k = attempt + (k + 1) by omega]; exact hok
      have herr' : ∀ i, attempt + 1 + 1 ≤ i → i < attempt + 1 + k →
          ∃ e, f i = .error e ∧ is_retryable_error e = true := by
        intro i hi1 hi2; exact herr i (by omega) (by omega)
      rw [ih hk1 (remaining - 1) (attempt + 1) (nextDelay config delay)
        (delay :: slept) (by omega) herr' hok']
      have h2 : delaysFrom config delay (k + 1 - 1) =
          delay :: delaysFrom config (nextDelay config delay) (k - 1) := by
        rw [show k + 1 - 1 = (k - 1) + 1 by omega]
        exact delaysFrom_succ config delay (k - 1)
      rw [h2, show attempt + 1 + k = attempt + (k + 1) by omega]
      simp

/-- If every attempt in the remaining budget produces a retryable error,
the loop surfaces the last attempt's error after exhausting the budget. -/
theorem retryAux_exhausts {α : Type} (config : RetryConfig)
    (f : Nat → Except String α) :
    ∀ (r : Nat), 1 ≤ r → ∀ (attempt delay : Nat) (slept : List Nat),
      (∀ i, attempt + 1 ≤ i → i ≤ attempt + r →
        ∃ e, f i = .error e ∧ is_retryable_error e = true) →
      ∃ e, f (attempt + r) = .error e ∧
        retryAux config f r attempt delay slept =
          (.error e, attempt + r, slept.reverse ++ delaysFrom config delay (r - 1)) := by
  intro r
  induction r with
  | zero => omega
  | succ r ih =>
    intro _ attempt delay slept herr
    by_cases hr0 : r = 0
    · subst hr0
      obtain ⟨e, he, hret⟩ := herr (attempt + 1) (by omega) (by omega)
      refine ⟨e, he, ?_⟩
      rw [retryAux_stop config f 1 attempt delay slept e he (.inl (by omega))]
      simp [delaysFrom]
    · have hr1 : 1 ≤ r := by omega
      obtain ⟨e, he, hret⟩ := herr (attempt + 1) (by omega) (by omega)
      rw [retryAux_step' config f (r + 1) attempt delay slept e (by omega) he hret]
      have herr' : ∀ i, attempt + 1 + 1 ≤ i → i ≤ attempt + 1 + r →
          ∃ e, f i = .error e ∧ is_retryable_error e = true := by
        intro i hi1 hi2; exact herr i (by omega) (by omega)
      obtain ⟨e', he', hrec⟩ := ih hr1 (attempt + 1) (nextDelay config delay)
        (delay :: slept) herr'
      refine ⟨e', ?_, ?_⟩
      · rw [show attempt + (r + 1) = attempt + 1 + r by omega]; exact he'
      · rw [show r + 1 - 1 = r by omega, hrec]
        have h2 : delaysFrom config delay (r + 1 - 1) =
            delay :: delaysFrom config (nextDelay config delay) (r - 1) := by
          rw [show r + 1 - 1 = (r - 1) + 1 by omega]
          exact delaysFrom_succ config delay (r - 1)
        rw [show attempt + 1 + r = attempt + (r + 1) by omega]
        rw [show (r : Nat) = r + 1 - 1 from (by omega), h2]
        simp

/-! ### Store operation lemmas -/

theorem find?_updatePda (vault_pda q : String) (f : VaultRow → VaultRow)
    (hf : ∀ r, (f r).vault_pda = r.vault_pda) (l : List VaultRow) :
    (updatePda vault_pda f l).find? (fun r => r.vault_pda == q) =
      (l.find? (fun r => r.vault_pda == q)).map
        (fun r => if r.vault_pda == vault_pda then f r else r) := by
  induction l with
  | nil => simp [updatePda]
  | cons r rs ih =>
    have hpda : (if r.vault_pda == vault_pda then f r else r).vault_pda =
        r.vault_pda := by
      split
      · exact hf r
      · rfl
    simp only [updatePda, List.map_cons, List.find?]
    rw [hpda]
    cases hq : (r.vault_pda == q) with
    | true => simp
    | false => simpa [updatePda] using ih

theorem countP_updatePda (vault_pda q : String) (f : VaultRow → VaultRow)
    (hf : ∀ r, (f r).vault_pda = r.vault_pda) (l : List VaultRow) :
    (updatePda vault_pda f l).countP (fun r => r.vault_pda == q) =
      l.countP (fun r => r.vault_pda == q) := by
  induction l with
  | nil => rfl
  | cons r rs ih =>
    have hpda : (if r.vault_pda == vault_pda then f r else r).vault_pda =
        r.vault_pda := by
      split
      · exact hf r
      · rfl
    simp only [updatePda, List.map_cons, List.countP_cons] at *
    rw [hpda, ih]

theorem sum_updatePda (vault_pda : String) (f : VaultRow → VaultRow) (d : Int)
    (hd : ∀ r, (f r).total_balance = r.total_balance + d) (l : List VaultRow) :
    ((updatePda vault_pda f l).map (fun r => r.total_balance)).sum =
      (l.map (fun r => r.total_balance)).sum +
        d * (l.countP (fun r => r.vault_pda == vault_pda) : Int) := by
  induction l with
  | nil => simp [updatePda]
  | cons r rs ih =>
    simp only [updatePda, List.map_cons, List.sum_cons, List.countP_cons] at *
    cases hq : (r.vault_pda == vault_pda) with
    | true =>
      simp only [hq, if_true, hd r]
      rw [ih]
      push_cast
      ring
    | false =>
      simp only [hq, Bool.false_eq_true, if_false]
      rw [ih]
      push_cast
      ring

theorem mem_insertByCreated (v x : VaultRow) (l : List VaultRow) :
    x ∈ insertByCreated v l ↔ x = v ∨ x ∈ l := by
  induction l with
  | nil => simp [insertByCreated]
  | cons w ws ih =>
    simp only [insertByCreated]
    split
    · simp
    · simp only [List.mem_cons, ih]
      tauto

theorem mem_get_all_vaults (s : Store) (x : VaultRow) :
    x ∈ get_all_vaults s ↔ x ∈ s.vaults := by
  unfold get_all_vaults
  induction s.vaults with
  | nil => simp
  | cons w ws ih =>
    simp only [List.foldr_cons, mem_insertByCreated, List.mem_cons, ih]

theorem runSteps_append {α : Type} (step : α → Store → ProcResult)
    (l1 l2 : List α) (s : Store) :
    runSteps step (l1 ++ l2) s =
      match runSteps step l1 s with
      | .ok s1 => runSteps step l2 s1
      | .err s' m => .err s' m := by
  induction l1 generalizing s with
  | nil => simp [runSteps]
  | cons x xs ih =>
    simp only [List.cons_append, runSteps]
    cases step x s with
    | ok s' => exact ih s'
    | err s' m => rfl

theorem runSteps_isErr_of_mem {α : Type} (step : α → Store → ProcResult)
    (x : α) (hbad : ∀ s', (step x s').isErr = true) :
    ∀ (l : List α), x ∈ l → ∀ s, (runSteps step l s).isErr = true := by
  intro l
  induction l with
  | nil => intro h; exact absurd h (List.not_mem_nil x)
  | cons y ys ih =>
    intro hmem s
    simp only [runSteps]
    cases hstep : step y s with
    | ok s' =>
      rcases List.mem_cons.mp hmem with rfl | htail
      · have := hbad s
        rw [hstep] at this
        exact absurd this (by simp [ProcResult.isErr])
      · exact ih htail s'
    | err s' m => rfl

theorem applyEvent_processed (env : Env) (sig : String) (slot block_time : Int)
    (s : Store) (ev : VaultEvent) :
    ((applyEvent env sig slot block_time s ev).store).processed_events =
      s.processed_events := by
  cases ev with
  | vaultInitialized vault owner mint timestamp =>
    simp only [applyEvent, ProcResult.store, insert_new_vault, upsert_vault]
    split <;> rfl
  | deposit user amount new_balance timestamp =>
    simp only [applyEvent]
    cases hp : env.parsePubkey user with
    | none => rfl
    | some key =>
      simp only [ProcResult.store, set_balance_from_event, insert_simple,
        insertTransactionRow]
      split <;> rfl
  | withdraw vault user amount =>
    simp only [applyEvent, ProcResult.store, apply_withdraw, insert_simple,
      insertTransactionRow]
    split <;> rfl
  | lock vault amount => rfl
  | unlock vault amount => rfl
  | transfer src dst amount => rfl
  | programAuthorized p => rfl
  | vaultAuthorityInitialized a => rfl

theorem applyEvents_processed (env : Env) (sig : String) (slot block_time : Int)
    (es : List VaultEvent) :
    ∀ s : Store,
      ((applyEvents env sig slot block_time es s).store).processed_events =
        s.processed_events := by
  induction es with
  | nil => intro s; rfl
  | cons e es ih =>
    intro s
    simp only [applyEvents]
    cases he : applyEvent env sig slot block_time s e with
    | ok s' =>
      have h1 := applyEvent_processed env sig slot block_time s e
      rw [he] at h1
      rw [← h1]
      exact ih s'
    | err s' m =>
      have h1 := applyEvent_processed env sig slot block_time s e
      rw [he] at h1
      exact h1

theorem applyEvents_append (env : Env) (sig : String) (slot block_time : Int)
    (es1 es2 : List VaultEvent) (s : Store) :
    applyEvents env sig slot block_time (es1 ++ es2) s =
      match applyEvents env sig slot block_time es1 s with
      | .ok s1 => applyEvents env sig slot block_time es2 s1
      | .err s' m => .err s' m := by
  induction es1 generalizing s with
  | nil => simp [applyEvents]
  | cons e es ih =>
    simp only [List.cons_append, applyEvents]
    cases applyEvent env sig slot block_time s e with
    | ok s' => exact ih s'
    | err s' m => rfl

/-! ### Small bridging lemmas -/

theorem insertTransactionRow_vaults (row : TransactionRow) (s : Store) :
    (insertTransactionRow row s).vaults = s.vaults := by
  unfold insertTransactionRow
  split <;> rfl

/-! ## Claim theorems -/

/-- C1 (amended): applying a `Deposit(user, amount, new_balance, timestamp)`
event inserts a `deposit` TransactionRecord and then sets, on every vault
row whose PDA is the one derived from the parsed user key,
`total_balance = available_balance = new_balance` and
`last_synced_at = from_unix(timestamp)`, leaving `locked_balance`,
`total_deposited` and `total_withdrawn` unchanged — in particular
`total_deposited` is *not* advanced, so after the initialize-then-deposit
scenario the row reads `total=500, available=500, locked=0,
total_deposited=0, total_withdrawn=0`. -/
theorem deposit_event_balance_update (env : Env) (s : Store)
    (user key : String) (amount new_balance : Nat)
    (timestamp slot block_time : Int) (sig : String)
    (hp : env.parsePubkey user = some key) :
    applyEvent env sig slot block_time s
        (.deposit user amount new_balance timestamp) =
      .ok (set_balance_from_event env (env.derivePda key)
        (u64_as_i64 new_balance) timestamp
        (insert_simple env (env.derivePda key) (some user) sig "deposit"
          (u64_as_i64 amount) slot block_time s)) ∧
    (set_balance_from_event env (env.derivePda key) (u64_as_i64 new_balance)
        timestamp
        (insert_simple env (env.derivePda key) (some user) sig "deposit"
          (u64_as_i64 amount) slot block_time s)).vaults =
      updatePda (env.derivePda key)
        (setBalanceRow (u64_as_i64 new_balance) (fromTimestamp env timestamp))
        s.vaults ∧
    ∀ r : VaultRow,
      setBalanceRow (u64_as_i64 new_balance) (fromTimestamp env timestamp) r =
        { r with
          total_balance := u64_as_i64 new_balance,
          available_balance := u64_as_i64 new_balance,
          last_synced_at := fromTimestamp env timestamp } := by
  refine ⟨?_, ?_, ?_⟩
  · simp [applyEvent, hp]
  · simp [set_balance_from_event, insert_simple, insertTransactionRow_vaults]
  · intro r
    rfl

/-- Witness for C1: the deposit of the concrete scenario, with the parse
hypothesis discharged at `user = "U"`. -/
theorem deposit_event_balance_update_witness :
    env0.parsePubkey "U" = some "U" ∧
    applyEvent env0 "sig2" 2 1100 storeAfterInit (.deposit "U" 500 500 1100) =
      .ok (set_balance_from_event env0 (env0.derivePda "U") (u64_as_i64 500) 1100
        (insert_simple env0 (env0.derivePda "U") (some "U") "sig2" "deposit"
          (u64_as_i64 500) 2 1100 storeAfterInit)) :=
  ⟨by decide,
   (deposit_event_balance_update env0 storeAfterInit "U" "U" 500 500 1100 2 1100
     "sig2" (by decide)).1⟩

/-- Counterexample to C1 as stated: after `VaultInitialized(V, U, M, 1000)`
and `Deposit(U, 500, 500, 1100)` the vault row has `total_deposited = 0`,
not `500`, and the counter invariant
`total_deposited - total_withdrawn = total_balance` fails. -/
theorem deposit_counter_invariant_counterexample :
    process_transaction env0 txInit emptyStore = .ok storeAfterInit ∧
    process_transaction env0 txDeposit storeAfterInit = .ok storeAfterDeposit ∧
    get_vault storeAfterDeposit "V" = some c1_row ∧
    c1_row.total_balance = 500 ∧ c1_row.available_balance = 500 ∧
    c1_row.locked_balance = 0 ∧ c1_row.total_withdrawn = 0 ∧
    c1_row.total_deposited = 0 ∧
    ¬(c1_row.total_deposited - c1_row.total_withdrawn = c1_row.total_balance) := by
  decide

/-- C2 (amended): `process_transaction` issues every repository write
directly against the pool — there is no enclosing database transaction.
Events apply sequentially with each effect committing immediately; when
applying an event fails, the effects of the preceding events stay
committed, the remaining events are not applied, and the signature is not
marked processed. -/
theorem event_application_partial_commit (env : Env) (tx : Tx) :
    (∀ (s s' : Store) (m : String),
      process_transaction env tx s = .err s' m →
      s'.processed_events = s.processed_events) ∧
    (∀ (s s1 s1' : Store) (sig m : String) (es1 es2 : List VaultEvent)
        (e : VaultEvent),
      tx.signatures.head? = some sig →
      is_processed s sig = false →
      tx.events = es1 ++ e :: es2 →
      applyEvents env sig tx.slot (tx.block_time.getD 0) es1 s = .ok s1 →
      applyEvent env sig tx.slot (tx.block_time.getD 0) s1 e = .err s1' m →
      process_transaction env tx s = .err s1' m) := by
  constructor
  · intro s s' m h
    unfold process_transaction at h
    cases hsig : tx.signatures.head? with
    | none =>
      rw [hsig] at h
      cases h
      rfl
    | some sig =>
      rw [hsig] at h
      by_cases hp : is_processed s sig
      · simp [hp] at h
      · simp only [hp, Bool.false_eq_true, if_false] at h
        cases happ : applyEvents env sig tx.slot (tx.block_time.getD 0) tx.events s with
        | ok s1 => rw [happ] at h; cases h
        | err s2 m2 =>
          rw [happ] at h
          cases h
          have hpe := applyEvents_processed env sig tx.slot (tx.block_time.getD 0)
            tx.events s
          rw [happ] at hpe
          exact hpe
  · intro s s1 s1' sig m es1 es2 e hsig hproc hev happ1 herr
    unfold process_transaction
    rw [hsig]
    simp only [hproc, Bool.false_eq_true, if_false]
    rw [hev, applyEvents_append, happ1]
    simp only [applyEvents]
    rw [herr]

/-- Witness for C2: the two-event signature `S2` against `storeW0`, failing
on its second (unparseable) deposit after its withdraw has been applied. -/
theorem event_application_partial_commit_witness :
    txBad.signatures.head? = some "S2" ∧
    is_processed storeW0 "S2" = false ∧
    txBad.events = [VaultEvent.withdraw "V" "U" 50] ++
      VaultEvent.deposit "BAD" 1 1 0 :: [] ∧
    applyEvents env0 "S2" txBad.slot (txBad.block_time.getD 0)
      [VaultEvent.withdraw "V" "U" 50] storeW0 = .ok c2_partial ∧
    applyEvent env0 "S2" txBad.slot (txBad.block_time.getD 0) c2_partial
      (VaultEvent.deposit "BAD" 1 1 0) = .err c2_partial "invalid user pubkey" ∧
    process_transaction env0 txBad storeW0 = .err c2_partial "invalid user pubkey" :=
  ⟨rfl, by decide, rfl, by decide, by decide,
   (event_application_partial_commit env0 txBad).2 storeW0 c2_partial c2_partial
     "S2" "invalid user pubkey" [VaultEvent.withdraw "V" "U" 50] []
     (VaultEvent.deposit "BAD" 1 1 0) rfl (by decide) rfl (by decide) (by decide)⟩

/-- Counterexample to C2 as stated: processing signature `S2` fails on its
second event, yet the store is *not* left unchanged — the first event's
withdraw and its TransactionRecord are committed — while the signature is
indeed not marked processed. -/
theorem partial_effects_counterexample :
    process_transaction env0 txBad storeW0 = .err c2_partial "invalid user pubkey" ∧
    c2_partial ≠ storeW0 ∧
    (get_vault c2_partial "V").map (fun r => r.total_balance) = some 50 ∧
    c2_partial.transactions.length = 1 ∧
    is_processed c2_partial "S2" = false := by
  decide

/-- C3 (amended): the balance invariants `total = available + locked` and
`0 ≤ locked ≤ total` hold after `VaultInitialized` (fresh or merged row)
unconditionally, and are preserved by the withdraw / lock / unlock /
transfer row updates provided the amount is within the relevant balance;
the deposit path (`setBalanceRow`) re-establishes them only when the
pre-state has `locked_balance = 0` — with a positive locked balance it
breaks the sum invariant (see the counterexample). -/
theorem balance_invariant_preservation :
    (∀ (env : Env) (vault_pda owner mint : String) (timestamp : Int),
      BalancedRow (newVaultRow env vault_pda owner mint timestamp)) ∧
    (∀ v old : VaultRow, BalancedRow v → BalancedRow (mergeVaultRow v old)) ∧
    (∀ (r : VaultRow) (nb ts : Int),
      r.locked_balance = 0 → 0 ≤ nb → BalancedRow (setBalanceRow nb ts r)) ∧
    (∀ (r : VaultRow) (a now : Int), BalancedRow r →
      0 ≤ a → a ≤ r.available_balance → BalancedRow (withdrawRow a now r)) ∧
    (∀ (r : VaultRow) (a now : Int), BalancedRow r →
      0 ≤ a → a ≤ r.available_balance → BalancedRow (lockRow a now r)) ∧
    (∀ (r : VaultRow) (a now : Int), BalancedRow r →
      0 ≤ a → a ≤ r.locked_balance → BalancedRow (unlockRow a now r)) ∧
    (∀ (r : VaultRow) (a now : Int), BalancedRow r →
      0 ≤ a → a ≤ r.available_balance → BalancedRow (debitRow a now r)) ∧
    (∀ (r : VaultRow) (a now : Int), BalancedRow r →
      0 ≤ a → BalancedRow (creditRow a now r)) := by
  refine ⟨?_, ?_, ?_, ?_, ?_, ?_, ?_, ?_⟩
  · intro env vault_pda owner mint timestamp
    simp [BalancedRow, newVaultRow]
  · intro v old hv
    simpa [BalancedRow, mergeVaultRow] using hv
  · intro r nb ts hl h0
    refine ⟨?_, ?_, ?_⟩
    · simp [setBalanceRow, hl]
    · simp [setBalanceRow, hl]
    · simp only [setBalanceRow, hl]
      omega
  · intro r a now hr h0 h1
    obtain ⟨e1, e2, e3⟩ := hr
    refine ⟨?_, ?_, ?_⟩ <;> simp [withdrawRow] <;> omega
  · intro r a now hr h0 h1
    obtain ⟨e1, e2, e3⟩ := hr
    refine ⟨?_, ?_, ?_⟩ <;> simp [lockRow] <;> omega
  · intro r a now hr h0 h1
    obtain ⟨e1, e2, e3⟩ := hr
    refine ⟨?_, ?_, ?_⟩ <;> simp [unlockRow] <;> omega
  · intro r a now hr h0 h1
    obtain ⟨e1, e2, e3⟩ := hr
    refine ⟨?_, ?_, ?_⟩ <;> simp [debitRow] <;> omega
  · intro r a now hr h0
    obtain ⟨e1, e2, e3⟩ := hr
    refine ⟨?_, ?_, ?_⟩ <;> simp [creditRow] <;> omega

/-- Witness for C3: invariant preservation at concrete rows. -/
theorem balance_invariant_preservation_witness :
    BalancedRow rowLocked ∧ BalancedRow (withdrawRow 30 999 rowLocked) ∧
    rowV100.locked_balance = 0 ∧ BalancedRow (setBalanceRow 200 1100 rowV100) :=
  ⟨by decide,
   balance_invariant_preservation.2.2.2.1 rowLocked 30 999 (by decide)
     (by decide) (by decide),
   by decide,
   balance_invariant_preservation.2.2.1 rowV100 200 1100 (by decide) (by decide)⟩

/-- Counterexample to C3 as stated: a pre-state with `locked_balance = 50`
satisfies both invariants, yet the committed Deposit path
(`set_balance_from_event` with `new_balance = 200`) produces a row with
`total = 200`, `available = 200`, `locked = 50`, breaking
`total = available + locked`. -/
theorem deposit_breaks_balance_invariant :
    BalancedRow rowLocked ∧
    (set_balance_from_event env0 "V" 200 1100 storeLocked).vaults =
      [setBalanceRow 200 1100 rowLocked] ∧
    ¬ BalancedRow (setBalanceRow 200 1100 rowLocked) := by
  decide

/-- C4 (confirmed): processing a signature already present in
`processed_events` is a no-op — the store is returned unchanged, so no
vault row changes, no transactions row is inserted and no snapshot is
written. -/
theorem replay_is_noop (env : Env) (tx : Tx) (s : Store) (sig : String)
    (hsig : tx.signatures.head? = some sig)
    (hproc : is_processed s sig = true) :
    process_transaction env tx s = .ok s := by
  unfold process_transaction
  rw [hsig]
  simp [hproc]

/-- Witness for C4: signature `S` carrying `Withdraw(V, 50)` processed once
reduces `V` from 100 to 50 and marks `S`; processing `S` again returns the
store unchanged. -/
theorem replay_is_noop_witness :
    process_transaction env0 txS storeW0 = .ok storeW1 ∧
    (get_vault storeW0 "V").map (fun r => r.total_balance) = some 100 ∧
    (get_vault storeW1 "V").map (fun r => r.total_balance) = some 50 ∧
    storeW1.transactions.length = 1 ∧
    txS.signatures.head? = some "S" ∧
    is_processed storeW1 "S" = true ∧
    process_transaction env0 txS storeW1 = .ok storeW1 :=
  ⟨by decide, by decide, by decide, by decide, rfl, by decide,
   replay_is_noop env0 txS storeW1 "S" rfl (by decide)⟩


/-- C5 (amended/corrected): a failing element does *not* let a pass
continue.  Every `?` in the two `run_once` loop bodies returns the error
from the pass immediately: if the elements before position `k` succeed and
element `k` fails, the pass returns that error and the elements after `k`
are never processed. -/
theorem pass_aborts_on_error (env : Env) :
    (∀ (l1 l2 : List VaultRow) (v : VaultRow) (s s1 s1' : Store) (m : String),
      runSteps (reconStep env) l1 s = .ok s1 →
      reconStep env v s1 = .err s1' m →
      runSteps (reconStep env) (l1 ++ v :: l2) s = .err s1' m) ∧
    (∀ (l1 l2 : List String) (sig : String) (s s1 s1' : Store) (m : String),
      runSteps (indexerStep env) l1 s = .ok s1 →
      indexerStep env sig s1 = .err s1' m →
      runSteps (indexerStep env) (l1 ++ sig :: l2) s = .err s1' m) := by
  constructor
  · intro l1 l2 v s s1 s1' m h1 h2
    rw [runSteps_append, h1]
    show runSteps (reconStep env) (v :: l2) s1 = .err s1' m
    simp only [runSteps]
    rw [h2]
  · intro l1 l2 sig s s1 s1' m h1 h2
    rw [runSteps_append, h1]
    show runSteps (indexerStep env) (sig :: l2) s1 = .err s1' m
    simp only [runSteps]
    rw [h2]

/-- Witness for C5: the reconciliation pass over `storeRecon`, failing on
its first vault (empty token account) with the diverged vault still in the
remainder of the list. -/
theorem pass_aborts_on_error_witness :
    runSteps (reconStep env0) [] storeRecon = .ok storeRecon ∧
    reconStep env0 rowEmptyToken storeRecon =
      .err storeRecon "invalid token account pubkey" ∧
    runSteps (reconStep env0) ([] ++ rowEmptyToken :: [rowDiverged]) storeRecon =
      .err storeRecon "invalid token account pubkey" :=
  ⟨rfl, by decide,
   (pass_aborts_on_error env0).1 [] [rowDiverged] rowEmptyToken storeRecon
     storeRecon storeRecon "invalid token account pubkey" rfl (by decide)⟩

/-- Counterexample to C5 as stated: on `storeRecon` the reconciliation pass
returns an error from its first vault and records nothing, although the
remaining vault `rowDiverged` has a genuine discrepancy (mirrored 1000 vs
on-chain 900) that a continuing pass would have logged. -/
theorem pass_continue_counterexample :
    ReconciliationWorker.run_once env0 storeRecon =
      .err storeRecon "invalid token account pubkey" ∧
    storeRecon.recon_logs = [] ∧
    rowDiverged ∈ storeRecon.vaults ∧
    (env0.fetchTokenBalance "T2").toOption = some 900 ∧
    rowDiverged.total_balance = 1000 ∧
    (reconStep env0 rowDiverged storeRecon).store.recon_logs.length = 1 := by
  decide

/-- C6 (confirmed): `apply_transfer(from=A, to=B, amount)` on a store with
exactly one `A` row and one `B` row (`A ≠ B`) leaves `get_tvl` unchanged,
debits `A`'s `total_balance` and `available_balance` by `amount`, and
credits `B`'s symmetrically. -/
theorem transfer_conserves_tvl (env : Env) (s : Store) (A B : String)
    (amount : Int)
    (hA : s.vaults.countP (fun r => r.vault_pda == A) = 1)
    (hB : s.vaults.countP (fun r => r.vault_pda == B) = 1)
    (hAB : A ≠ B) :
    get_tvl (apply_transfer env A B amount s) = get_tvl s ∧
    get_vault (apply_transfer env A B amount s) A =
      (get_vault s A).map (debitRow amount env.now) ∧
    get_vault (apply_transfer env A B amount s) B =
      (get_vault s B).map (creditRow amount env.now) ∧
    (∀ r : VaultRow,
      (debitRow amount env.now r).total_balance = r.total_balance - amount ∧
      (debitRow amount env.now r).available_balance =
        r.available_balance - amount) ∧
    (∀ r : VaultRow,
      (creditRow amount env.now r).total_balance = r.total_balance + amount ∧
      (creditRow amount env.now r).available_balance =
        r.available_balance + amount) := by
  have hfd : ∀ r : VaultRow, (debitRow amount env.now r).vault_pda = r.vault_pda :=
    fun r => rfl
  have hfg : ∀ r : VaultRow, (creditRow amount env.now r).vault_pda = r.vault_pda :=
    fun r => rfl
  have hvaults : (apply_transfer env A B amount s).vaults =
      updatePda B (creditRow amount env.now)
        (updatePda A (debitRow amount env.now) s.vaults) := rfl
  refine ⟨?_, ?_, ?_, fun r => ⟨rfl, rfl⟩, fun r => ⟨rfl, rfl⟩⟩
  · unfold get_tvl
    rw [hvaults]
    rw [sum_updatePda B (creditRow amount env.now) amount (fun r => rfl)]
    rw [countP_updatePda A B (debitRow amount env.now) hfd]
    rw [sum_updatePda A (debitRow amount env.now) (-amount)
      (fun r => by simp [debitRow, sub_eq_add_neg])]
    rw [hA, hB]
    push_cast
    ring
  · unfold get_vault
    rw [hvaults]
    rw [find?_updatePda B A (creditRow amount env.now) hfg]
    rw [find?_updatePda A A (debitRow amount env.now) hfd]
    cases hfind : s.vaults.find? (fun r => r.vault_pda == A) with
    | none => rfl
    | some rA =>
      have hApda : rA.vault_pda = A := by
        simpa using List.find?_some hfind
      have hpda : (rA.vault_pda == A) = true := by simp [hApda]
      have hnB : ((debitRow amount env.now rA).vault_pda == B) = false := by
        rw [hfd rA, hApda]
        exact beq_eq_false_iff_ne.mpr hAB
      simp only [Option.map_some', hpda, if_true, hnB, Bool.false_eq_true,
        if_false]
  · unfold get_vault
    rw [hvaults]
    rw [find?_updatePda B B (creditRow amount env.now) hfg]
    rw [find?_updatePda A B (debitRow amount env.now) hfd]
    cases hfind : s.vaults.find? (fun r => r.vault_pda == B) with
    | none => rfl
    | some rB =>
      have hBpda : rB.vault_pda = B := by
        simpa using List.find?_some hfind
      have hpda : (rB.vault_pda == B) = true := by simp [hBpda]
      have hnA : (rB.vault_pda == A) = false := by
        rw [hBpda]
        exact beq_eq_false_iff_ne.mpr (fun h => hAB h.symm)
      simp only [Option.map_some', hpda, if_true, hnA, Bool.false_eq_true,
        if_false]

/-- Witness for C6: vaults `(1000, 500)` become `(800, 700)` after
`Transfer(A, B, 200)` and the TVL stays 1500. -/
theorem transfer_conserves_tvl_witness :
    storeAB.vaults.countP (fun r => r.vault_pda == "A") = 1 ∧
    storeAB.vaults.countP (fun r => r.vault_pda == "B") = 1 ∧
    get_tvl storeAB = 1500 ∧
    get_tvl (apply_transfer env0 "A" "B" 200 storeAB) = get_tvl storeAB ∧
    (get_vault (apply_transfer env0 "A" "B" 200 storeAB) "A").map
      (fun r => (r.total_balance, r.available_balance)) = some (800, 800) ∧
    (get_vault (apply_transfer env0 "A" "B" 200 storeAB) "B").map
      (fun r => (r.total_balance, r.available_balance)) = some (700, 700) :=
  ⟨by decide, by decide, by decide,
   (transfer_conserves_tvl env0 storeAB "A" "B" 200 (by decide) (by decide)
     (by decide)).1,
   by decide, by decide⟩

/-- C10 (confirmed): `insert_new_vault` stores the empty string in both
`vault_token_account` and `program_id` of every row it creates; given that
`Pubkey::from_str("")` fails, any store containing such a vault makes the
reconciliation pass error out before that vault's balances are compared. -/
theorem empty_token_account_breaks_reconciliation (env : Env) (s : Store)
    (vault_pda owner mint : String) (timestamp : Int)
    (hparse : env.parsePubkey "" = none)
    (hbad : ∃ v ∈ s.vaults, v.vault_token_account = "") :
    (newVaultRow env vault_pda owner mint timestamp).vault_token_account = "" ∧
    (newVaultRow env vault_pda owner mint timestamp).program_id = "" ∧
    (s.vaults.any (fun r => r.vault_pda == vault_pda) = false →
      (insert_new_vault env vault_pda owner mint timestamp s).vaults =
        s.vaults ++ [newVaultRow env vault_pda owner mint timestamp]) ∧
    (ReconciliationWorker.run_once env s).isErr = true := by
  refine ⟨rfl, rfl, ?_, ?_⟩
  · intro hnew
    unfold insert_new_vault upsert_vault
    rw [show (newVaultRow env vault_pda owner mint timestamp).vault_pda =
      vault_pda from rfl, hnew]
    simp
  · obtain ⟨v, hv, htok⟩ := hbad
    have hbadstep : ∀ s' : Store, (reconStep env v s').isErr = true := by
      intro s'
      unfold reconStep
      rw [htok, hparse]
      rfl
    exact runSteps_isErr_of_mem (reconStep env) v hbadstep (get_all_vaults s)
      ((mem_get_all_vaults s v).mpr hv) s

/-- Witness for C10: the concrete environment (where `""` fails to parse)
and the store containing the indexer-created vault `rowEmptyToken`. -/
theorem empty_token_account_breaks_reconciliation_witness :
    env0.parsePubkey "" = none ∧
    rowEmptyToken ∈ storeRecon.vaults ∧
    rowEmptyToken.vault_token_account = "" ∧
    (ReconciliationWorker.run_once env0 storeRecon).isErr = true :=
  ⟨by decide, by decide, rfl,
   (empty_token_account_breaks_reconciliation env0 storeRecon "P" "O" "M" 0
     (by decide) ⟨rowEmptyToken, by decide, rfl⟩).2.2.2⟩


/-- C7 (confirmed): retry classification and behaviour.  An error is
retryable exactly when its lowercased message contains one of the five
listed substrings; `retry_with_backoff` returns a success as soon as an
attempt succeeds, surfaces a non-retryable error after exactly one
attempt, retries retryable errors up to `max_attempts` total attempts
surfacing the last error, and the inter-attempt delays follow
`delay ← min(delay × multiplier, max_delay_ms)` starting from
`initial_delay_ms`. -/
theorem retry_with_backoff_spec {α : Type} (config : RetryConfig)
    (f : Nat → Except String α) (hmax : 1 ≤ config.max_attempts) :
    (∀ msg : String, is_retryable_error msg = true ↔
      ∃ pat ∈ (["timeout", "connection", "temporarily", "unavailable",
        "rate limit"] : List String), strContains (lowerStr msg) pat = true) ∧
    (∀ v, f 1 = .ok v → retry_with_backoff config f = (.ok v, 1, [])) ∧
    (∀ e, f 1 = .error e → is_retryable_error e = false →
      retry_with_backoff config f = (.error e, 1, [])) ∧
    (∀ (k : Nat) (v : α), 1 ≤ k → k ≤ config.max_attempts →
      (∀ i, 1 ≤ i → i < k → ∃ e, f i = .error e ∧ is_retryable_error e = true) →
      f k = .ok v →
      retry_with_backoff config f =
        (.ok v, k, delaysFrom config config.initial_delay_ms (k - 1))) ∧
    ((∀ i, 1 ≤ i → i ≤ config.max_attempts →
        ∃ e, f i = .error e ∧ is_retryable_error e = true) →
      ∃ e, f config.max_attempts = .error e ∧
        retry_with_backoff config f =
          (.error e, config.max_attempts,
            delaysFrom config config.initial_delay_ms
              (config.max_attempts - 1))) ∧
    (∀ d : Nat, nextDelay config d =
      min (Int.toNat ⌊(d : ℚ) * config.backoff_multiplier⌋)
        config.max_delay_ms) := by
  refine ⟨?_, ?_, ?_, ?_, ?_, fun d => rfl⟩
  · intro msg
    constructor
    · intro h
      simp only [is_retryable_error, Bool.or_eq_true] at h
      rcases h with ((((h | h) | h) | h) | h)
      · exact ⟨"timeout", by simp, h⟩
      · exact ⟨"connection", by simp, h⟩
      · exact ⟨"temporarily", by simp, h⟩
      · exact ⟨"unavailable", by simp, h⟩
      · exact ⟨"rate limit", by simp, h⟩
    · rintro ⟨pat, hpat, hc⟩
      simp only [List.mem_cons, List.not_mem_nil, or_false] at hpat
      simp only [is_retryable_error, Bool.or_eq_true]
      rcases hpat with rfl | rfl | rfl | rfl | rfl <;> tauto
  · intro v hv
    have h := retryAux_ok config f config.max_attempts 0
      config.initial_delay_ms [] v hv
    unfold retry_with_backoff
    simpa using h
  · intro e he hret
    have h := retryAux_stop config f config.max_attempts 0
      config.initial_delay_ms [] e he (.inr hret)
    unfold retry_with_backoff
    simpa using h
  · intro k v hk1 hk2 herr hok
    have h := retryAux_succeeds config f v k hk1 config.max_attempts 0
      config.initial_delay_ms [] hk2
      (by intro i h1 h2; exact herr i (by omega) (by omega))
      (by simpa using hok)
    unfold retry_with_backoff
    simpa using h
  · intro herr
    obtain ⟨e, he, hrec⟩ := retryAux_exhausts config f config.max_attempts hmax
      0 config.initial_delay_ms []
      (by intro i h1 h2; exact herr i (by omega) (by omega))
    refine ⟨e, by simpa using he, ?_⟩
    unfold retry_with_backoff
    simpa using hrec

/-- Witness for C7: with the default config (`max_attempts = 3`), an
operation failing twice with `"connection refused"` then succeeding
completes on attempt 3 after sleeping 100 ms and 200 ms, and an operation
failing with `"invalid account"` returns on attempt 1. -/
theorem retry_with_backoff_spec_witness :
    1 ≤ RetryConfig.default.max_attempts ∧
    retry_with_backoff RetryConfig.default opConn = (.ok 42, 3, [100, 200]) ∧
    retry_with_backoff RetryConfig.default opInvalid =
      (.error "invalid account", 1, []) := by
  refine ⟨by decide, ?_, ?_⟩
  · have herr : ∀ i, 1 ≤ i → i < 3 →
        ∃ e, opConn i = .error e ∧ is_retryable_error e = true := by
      intro i h1 h2
      interval_cases i
      · exact ⟨"connection refused", rfl, by decide⟩
      · exact ⟨"connection refused", rfl, by decide⟩
    have h := (retry_with_backoff_spec RetryConfig.default opConn
      (by decide)).2.2.2.1 3 42 (by decide) (by decide) herr rfl
    have h1 : nextDelay RetryConfig.default 100 = 200 := by
      unfold nextDelay RetryConfig.default
      norm_num
      rfl
    have hd : delaysFrom RetryConfig.default
        RetryConfig.default.initial_delay_ms (3 - 1) = [100, 200] := by
      show delaysFrom RetryConfig.default 100 2 = [100, 200]
      simp [delaysFrom, List.range_succ, Function.iterate_succ_apply, h1]
    rw [h, hd]
  · exact (retry_with_backoff_spec RetryConfig.default opInvalid
      (by decide)).2.2.1 "invalid account" rfl (by decide)

/-- C8 (confirmed): `record_suspicious_withdrawal` appends exactly one
`SuspiciousWithdrawal` event whose severity is `Critical` exactly when
`amount > average_withdrawal * 10` (the product staying within u64), and
`Medium` otherwise; the failed-attempt map is untouched. -/
theorem suspicious_withdrawal_severity (st : AcmState) (user vault : String)
    (amount average_withdrawal : Nat) (now : Int)
    (hnov : average_withdrawal * 10 < U64MOD) :
    (record_suspicious_withdrawal st user vault amount average_withdrawal
        now).security_events =
      st.security_events ++
        [suspiciousEvent user vault amount average_withdrawal now] ∧
    (record_suspicious_withdrawal st user vault amount average_withdrawal
        now).failed_attempts = st.failed_attempts ∧
    (suspiciousEvent user vault amount average_withdrawal now).event_type =
      .suspiciousWithdrawal ∧
    ((suspiciousEvent user vault amount average_withdrawal now).severity =
        .critical ↔ average_withdrawal * 10 < amount) ∧
    ((suspiciousEvent user vault amount average_withdrawal now).severity =
        .medium ↔ ¬ average_withdrawal * 10 < amount) := by
  have hmod : (average_withdrawal * 10) % U64MOD = average_withdrawal * 10 :=
    Nat.mod_eq_of_lt hnov
  have hsev : (suspiciousEvent user vault amount average_withdrawal now).severity =
      if average_withdrawal * 10 < amount then AlertSeverity.critical
      else AlertSeverity.medium := by
    show (if (average_withdrawal * 10) % U64MOD < amount then
        AlertSeverity.critical else AlertSeverity.medium) = _
    rw [hmod]
  refine ⟨rfl, rfl, rfl, ?_, ?_⟩
  · rw [hsev]
    by_cases hc : average_withdrawal * 10 < amount
    · simp [hc]
    · simp [hc]
  · rw [hsev]
    by_cases hc : average_withdrawal * 10 < amount
    · simp [hc]
    · simp [hc]

/-- Witness for C8: `amount = 1_000_000_001` with `avg = 100_000_000`
yields one `Critical` event; `amount = 500_000_000` yields `Medium`. -/
theorem suspicious_withdrawal_severity_witness :
    (100000000 : Nat) * 10 < U64MOD ∧
    (record_suspicious_withdrawal AcmState.empty "user1" "vault1" 1000000001
      100000000 0).security_events.length = 1 ∧
    (suspiciousEvent "user1" "vault1" 1000000001 100000000 0).severity =
      .critical ∧
    (suspiciousEvent "user1" "vault1" 500000000 100000000 0).severity =
      .medium :=
  ⟨by decide, by decide,
   ((suspicious_withdrawal_severity AcmState.empty "user1" "vault1" 1000000001
     100000000 0 (by decide)).2.2.2.1).mpr (by decide),
   ((suspicious_withdrawal_severity AcmState.empty "user1" "vault1" 500000000
     100000000 0 (by decide)).2.2.2.2).mpr (by decide)⟩

/-- C9 (confirmed): each `record_unauthorized_attempt` call increments the
calling user's failed-attempt count by exactly one (0 for unseen users,
other users untouched) and appends one `High` severity event; a user is
blocked exactly when their count is at least 5; `clear_failed_attempts`
resets the count to 0 and unblocks. -/
theorem unauthorized_attempt_tracking (st : AcmState)
    (user vault details : String) (now : Int)
    (hcount : get_failed_attempts st user + 1 < U32MOD) :
    get_failed_attempts (record_unauthorized_attempt st user vault details now)
        user = get_failed_attempts st user + 1 ∧
    (∀ u, u ≠ user →
      get_failed_attempts (record_unauthorized_attempt st user vault details
        now) u = get_failed_attempts st u) ∧
    (record_unauthorized_attempt st user vault details now).security_events =
      st.security_events ++
        [{ event_type := .unauthorizedAccessAttempt, user := user,
           vault := vault, timestamp := now, details := details,
           severity := .high }] ∧
    (∀ (st' : AcmState) (u : String),
      is_user_blocked st' u = true ↔ 5 ≤ get_failed_attempts st' u) ∧
    ((st.failed_attempts.map Prod.fst).Nodup →
      get_failed_attempts (clear_failed_attempts st user) user = 0 ∧
      is_user_blocked (clear_failed_attempts st user) user = false) := by
  refine ⟨?_, ?_, rfl, ?_, ?_⟩
  · unfold get_failed_attempts record_unauthorized_attempt
    rw [lookup_bump_self]
    exact Nat.mod_eq_of_lt hcount
  · intro u hu
    unfold get_failed_attempts record_unauthorized_attempt
    exact lookup_bump_other st.failed_attempts user u hu
  · intro st' u
    unfold is_user_blocked
    exact decide_eq_true_iff
  · intro hnodup
    have h0 : get_failed_attempts (clear_failed_attempts st user) user = 0 := by
      unfold get_failed_attempts clear_failed_attempts
      exact lookup_remove_self st.failed_attempts user hnodup
    refine ⟨h0, ?_⟩
    unfold is_user_blocked
    rw [h0]
    rfl

/-- Witness for C9: five consecutive attempts for `"attacker"` leave the
count at 5 and the user blocked; clearing resets both. -/
theorem unauthorized_attempt_tracking_witness :
    get_failed_attempts acm4 "attacker" + 1 < U32MOD ∧
    get_failed_attempts acm5 "attacker" = 5 ∧
    is_user_blocked acm5 "attacker" = true ∧
    get_failed_attempts (clear_failed_attempts acm5 "attacker") "attacker" = 0 ∧
    is_user_blocked (clear_failed_attempts acm5 "attacker") "attacker" = false := by
  refine ⟨by decide, ?_, by decide, ?_, ?_⟩
  · have h := (unauthorized_attempt_tracking acm4 "attacker" "vault1" "attempt"
      0 (by decide)).1
    show get_failed_attempts
      (record_unauthorized_attempt acm4 "attacker" "vault1" "attempt" 0)
      "attacker" = 5
    rw [h]
    decide
  · exact ((unauthorized_attempt_tracking acm5 "attacker" "vault1" "attempt" 0
      (by decide)).2.2.2.2 (by decide)).1
  · exact ((unauthorized_attempt_tracking acm5 "attacker" "vault1" "attempt" 0
      (by decide)).2.2.2.2 (by decide)).2


end VaultBackend
